import Mathlib

/-!
Verification development for the llm-council frontend client.

The definitions below are a shallow embedding of `src/frontend/src/api.js`
(the `configStore` two-tier storage component and the `sendMessageStream`
read loop) and of `src/frontend/src/App.jsx` (the `handleSendMessage`
stream-event reducer, its optimistic-insert/rollback flow, and
`handleRemoveCouncilModel`).

Modelling conventions:
- `localStorage` / `sessionStorage` are modelled as partial maps
  `String → Option String` (`getItem` returns `null` ⇝ `none`).
- JavaScript truthiness checks on strings (`if (key)`, `x || y`) are modelled
  explicitly: `null` and the empty string are falsy, every other string truthy.
- `JSON.parse` / `JSON.stringify` are browser primitives external to the
  repository; they appear as explicit function parameters
  (`parse : String → Option (List String)`, `stringify : List String → String`)
  so that theorems quantify over any realisation of them.
- The SSE payload types (`event.data`, `event.metadata`) are opaque JSON
  values forwarded verbatim; they appear as type parameters `δ` (stage data)
  and `μ` (stage-2 metadata).
-/

namespace LLMCouncil

/-! ### Browser storage model -/

/-- One browser storage area (`localStorage` or `sessionStorage`): a partial
map from key to string value. `getItem` returning `none` models `null`. -/
def Store : Type := String → Option String

/-- Model of `storage.getItem(k)`. -/
def Store.getItem (s : Store) (k : String) : Option String := s k

/-- Model of `storage.setItem(k, v)`. -/
def Store.setItem (s : Store) (k v : String) : Store :=
  fun q => if q = k then some v else s q

/-- Model of `storage.removeItem(k)`. -/
def Store.removeItem (s : Store) (k : String) : Store :=
  fun q => if q = k then none else s q

/-- The pair of storage areas available to the page. -/
structure StorageState where
  localStore : Store
  sessionStore : Store

/-- Storage with no keys set in either tier. -/
def emptyStorage : StorageState := ⟨fun _ => none, fun _ => none⟩

/-- STORAGE_KEYS.apiKey from api.js. -/
def apiKeyKey : String := "llm_council_api_key"

/-- STORAGE_KEYS.councilModels from api.js. -/
def councilModelsKey : String := "llm_council_models"

/-- STORAGE_KEYS.chairmanModel from api.js. -/
def chairmanModelKey : String := "llm_council_chairman"

/-- STORAGE_KEYS.sessionOnly from api.js. -/
def sessionOnlyKey : String := "llm_council_session_only"

/-- STORAGE_KEYS.modelsCustomized from api.js. -/
def modelsCustomizedKey : String := "llm_council_models_customized"

/-- JavaScript truthiness of a string-or-null value: `null` and `''` are
falsy, all other strings truthy. Models checks such as `if (key) ...`. -/
def jsTruthy : Option String → Bool
  | none => false
  | some s => if s = "" then false else true

/-- JavaScript `x || fb` where `x` is a string-or-null expression: yields
`fb` when `x` is `null` or the empty string, otherwise the string itself. -/
def jsStringOr (x : Option String) (fb : String) : String :=
  match x with
  | none => fb
  | some s => if s = "" then fb else s

/-! ### configStore (api.js lines 45-144) -/

/-- configStore.isSessionOnly: `localStorage.getItem(sessionOnly) === 'true'`.
Also the condition used by `getStore()`. -/
def isSessionOnly (st : StorageState) : Prop :=
  st.localStore.getItem sessionOnlyKey = some "true"

instance (st : StorageState) : Decidable (isSessionOnly st) := by
  unfold isSessionOnly; infer_instance

/-- configStore.getApiKey: `sessionStorage.getItem(k) || localStorage.getItem(k) || ''`. -/
def getApiKey (st : StorageState) : String :=
  jsStringOr (st.sessionStore.getItem apiKeyKey)
    (jsStringOr (st.localStore.getItem apiKeyKey) "")

/-- configStore.setApiKey: write to the tier selected by `getStore()` and
remove any copy from the other tier. -/
def setApiKey (key : String) (st : StorageState) : StorageState :=
  if isSessionOnly st then
    { st with sessionStore := st.sessionStore.setItem apiKeyKey key,
              localStore := st.localStore.removeItem apiKeyKey }
  else
    { st with localStore := st.localStore.setItem apiKeyKey key,
              sessionStore := st.sessionStore.removeItem apiKeyKey }

/-- configStore.setSessionOnly: record the flag in localStorage, then migrate
a truthy API-key value from the now-inactive tier into the newly active one
(`if (key)` skips `null` and the empty string). -/
def setSessionOnly (val : Bool) (st : StorageState) : StorageState :=
  let st1 : StorageState :=
    { st with localStore :=
        st.localStore.setItem sessionOnlyKey (if val then "true" else "false") }
  if val then
    match st1.localStore.getItem apiKeyKey with
    | none => st1
    | some key =>
      if key = "" then st1
      else
        { st1 with sessionStore := st1.sessionStore.setItem apiKeyKey key,
                   localStore := st1.localStore.removeItem apiKeyKey }
  else
    match st1.sessionStore.getItem apiKeyKey with
    | none => st1
    | some key =>
      if key = "" then st1
      else
        { st1 with localStore := st1.localStore.setItem apiKeyKey key,
                   sessionStore := st1.sessionStore.removeItem apiKeyKey }

/-- configStore.getCouncilModels: `null` when nothing stored or the stored
string is falsy, otherwise `JSON.parse` with a parse failure mapped to
`null` by the try/catch. `parse` models `JSON.parse` specialised to the
stored shape. -/
def getCouncilModels (parse : String → Option (List String))
    (st : StorageState) : Option (List String) :=
  match st.localStore.getItem councilModelsKey with
  | none => none
  | some stored => if stored = "" then none else parse stored

/-- configStore.setCouncilModels: store `JSON.stringify(models)` durably. -/
def setCouncilModels (stringify : List String → String)
    (models : List String) (st : StorageState) : StorageState :=
  { st with localStore :=
      st.localStore.setItem councilModelsKey (stringify models) }

/-- configStore.getChairmanModel: `localStorage.getItem(k) || null`. -/
def getChairmanModel (st : StorageState) : Option String :=
  match st.localStore.getItem chairmanModelKey with
  | none => none
  | some s => if s = "" then none else some s

/-- configStore.setChairmanModel. -/
def setChairmanModel (model : String) (st : StorageState) : StorageState :=
  { st with localStore := st.localStore.setItem chairmanModelKey model }

/-- configStore.isModelsCustomized: `localStorage.getItem(k) === 'true'`. -/
def isModelsCustomized (st : StorageState) : Prop :=
  st.localStore.getItem modelsCustomizedKey = some "true"

instance (st : StorageState) : Decidable (isModelsCustomized st) := by
  unfold isModelsCustomized; infer_instance

/-- configStore.setModelsCustomized. -/
def setModelsCustomized (value : Bool) (st : StorageState) : StorageState :=
  { st with localStore :=
      st.localStore.setItem modelsCustomizedKey (if value then "true" else "false") }

/-- The `defaults` argument of `syncDefaults`: `council` is an array or
absent (arrays are always truthy in JS, including `[]`), `chairman` is a
string or absent (the empty string is falsy). -/
structure Defaults where
  council : Option (List String)
  chairman : Option String

/-- configStore.syncDefaults: no-op when the customized flag is `'true'`;
otherwise overwrite the stored council list (or remove the key when the
default is absent) and the stored chairman id (or remove the key when the
default is absent or falsy). -/
def syncDefaults (stringify : List String → String)
    (defaults : Defaults) (st : StorageState) : StorageState :=
  if st.localStore.getItem modelsCustomizedKey = some "true" then st
  else
    let st1 : StorageState :=
      match defaults.council with
      | some l =>
        { st with localStore := st.localStore.setItem councilModelsKey (stringify l) }
      | none =>
        { st with localStore := st.localStore.removeItem councilModelsKey }
    match defaults.chairman with
    | some c =>
      if c = "" then
        { st1 with localStore := st1.localStore.removeItem chairmanModelKey }
      else
        { st1 with localStore := st1.localStore.setItem chairmanModelKey c }
    | none =>
      { st1 with localStore := st1.localStore.removeItem chairmanModelKey }

/-- configStore.clearAll: remove every owned key from both tiers. -/
def clearAll (st : StorageState) : StorageState :=
  { localStore :=
      ((((st.localStore.removeItem apiKeyKey).removeItem councilModelsKey).removeItem
          chairmanModelKey).removeItem sessionOnlyKey).removeItem modelsCustomizedKey,
    sessionStore :=
      ((((st.sessionStore.removeItem apiKeyKey).removeItem councilModelsKey).removeItem
          chairmanModelKey).removeItem sessionOnlyKey).removeItem modelsCustomizedKey }

/-- The invariant "the secret exists in at most one tier". -/
def atMostOneTier (st : StorageState) : Prop :=
  st.localStore.getItem apiKeyKey = none ∨ st.sessionStore.getItem apiKeyKey = none

/-! ### Conversation state and the stream-event reducer (App.jsx) -/

/-- The three per-stage loading flags of an assistant message. -/
structure LoadingFlags where
  stage1 : Bool
  stage2 : Bool
  stage3 : Bool
deriving DecidableEq

/-- Message role tag. -/
inductive Role where
  | user
  | assistant
deriving DecidableEq

/-- One conversation message. User messages only carry `content`; assistant
messages carry the stage fields, mutated progressively by the reducer.
`δ` is the opaque stage payload type, `μ` the stage-2 metadata type. -/
structure Message (δ μ : Type) where
  role : Role
  content : Option String
  stage1 : Option δ
  stage2 : Option δ
  stage3 : Option δ
  metadata : Option μ
  loading : LoadingFlags

/-- The optimistic user message `\x7b role: 'user', content \x7d`. -/
def userMessage (δ μ : Type) (content : String) : Message δ μ :=
  ⟨.user, some content, none, none, none, none, ⟨false, false, false⟩⟩

/-- The empty-shell assistant message appended before streaming starts:
all stage fields null, all loading flags false. -/
def assistantShell (δ μ : Type) : Message δ μ :=
  ⟨.assistant, none, none, none, none, none, ⟨false, false, false⟩⟩

/-- The stream event types dispatched by the `onEvent` switch in
`handleSendMessage`; `unknown` is the default branch on an unrecognized
`event.type` string. -/
inductive CouncilEvent (δ μ : Type) where
  | stage1_start
  | stage1_complete (data : δ)
  | stage2_start
  | stage2_complete (data : δ) (metadata : μ)
  | stage3_start
  | stage3_complete (data : δ)
  | title_complete
  | complete
  | error (message : String)
  | unknown (eventType : String)

/-- The slice of App state the send flow touches: the current conversation's
messages, the global `isLoading` busy flag, and a counter of
`loadConversations()` refresh side effects. -/
structure AppState (δ μ : Type) where
  messages : List (Message δ μ)
  isLoading : Bool
  refreshCount : Nat

/-- Apply `f` to the last element of a list (the reducer's
`messages[messages.length - 1]` mutation on a fresh copy). -/
def updateLast {α : Type} (f : α → α) : List α → List α
  | [] => []
  | [x] => [f x]
  | x :: y :: xs => x :: updateLast f (y :: xs)

/-- Mutation applied to the last message on `stage1_start`. -/
def onStage1Start {δ μ : Type} (m : Message δ μ) : Message δ μ :=
  { m with loading := { m.loading with stage1 := true } }

/-- Mutation applied to the last message on `stage1_complete`. -/
def onStage1Complete {δ μ : Type} (d : δ) (m : Message δ μ) : Message δ μ :=
  { m with stage1 := some d, loading := { m.loading with stage1 := false } }

/-- Mutation applied to the last message on `stage2_start`. -/
def onStage2Start {δ μ : Type} (m : Message δ μ) : Message δ μ :=
  { m with loading := { m.loading with stage2 := true } }

/-- Mutation applied to the last message on `stage2_complete`: stage-2 data
and the event's metadata arrive together. -/
def onStage2Complete {δ μ : Type} (d : δ) (md : μ) (m : Message δ μ) : Message δ μ :=
  { m with stage2 := some d, metadata := some md,
           loading := { m.loading with stage2 := false } }

/-- Mutation applied to the last message on `stage3_start`. -/
def onStage3Start {δ μ : Type} (m : Message δ μ) : Message δ μ :=
  { m with loading := { m.loading with stage3 := true } }

/-- Mutation applied to the last message on `stage3_complete`. -/
def onStage3Complete {δ μ : Type} (d : δ) (m : Message δ μ) : Message δ μ :=
  { m with stage3 := some d, loading := { m.loading with stage3 := false } }

/-- One step of the `onEvent` switch in `handleSendMessage` (App.jsx
lines 328-405), applied to the state snapshot. -/
def applyEvent {δ μ : Type} (s : AppState δ μ) : CouncilEvent δ μ → AppState δ μ
  | .stage1_start => { s with messages := updateLast onStage1Start s.messages }
  | .stage1_complete d => { s with messages := updateLast (onStage1Complete d) s.messages }
  | .stage2_start => { s with messages := updateLast onStage2Start s.messages }
  | .stage2_complete d md => { s with messages := updateLast (onStage2Complete d md) s.messages }
  | .stage3_start => { s with messages := updateLast onStage3Start s.messages }
  | .stage3_complete d => { s with messages := updateLast (onStage3Complete d) s.messages }
  | .title_complete => { s with refreshCount := s.refreshCount + 1 }
  | .complete => { s with refreshCount := s.refreshCount + 1, isLoading := false }
  | .error _ => { s with isLoading := false }
  | .unknown _ => s

/-- Fold a sequence of stream events through the reducer. -/
def applyEvents {δ μ : Type} (s : AppState δ μ) (evs : List (CouncilEvent δ μ)) :
    AppState δ μ :=
  evs.foldl applyEvent s

/-- JavaScript `messages.slice(0, -2)`: all but the last two elements. -/
def sliceDropLastTwo {α : Type} (l : List α) : List α :=
  l.take (l.length - 2)

/-- The failure path of `handleSendMessage` when `sendMessageStream` itself
throws: set busy, optimistically append the user message and the assistant
shell, then in the catch block slice off the last two messages and clear
busy (App.jsx lines 290-415). -/
def handleSendMessageFailure {δ μ : Type} (s : AppState δ μ) (content : String) :
    AppState δ μ :=
  let s1 : AppState δ μ := { s with isLoading := true }
  let s2 : AppState δ μ := { s1 with messages := s1.messages ++ [userMessage δ μ content] }
  let s3 : AppState δ μ := { s2 with messages := s2.messages ++ [assistantShell δ μ] }
  { s3 with messages := sliceDropLastTwo s3.messages, isLoading := false }

/-- handleRemoveCouncilModel (App.jsx lines 266-273): filter the id out of
`config.councilModels || []`; refuse silently when fewer than 2 would
remain; otherwise mark customized, persist, and update config. Returns the
new config value together with the new storage state. -/
def handleRemoveCouncilModel (stringify : List String → String) (modelId : String)
    (councilModels : Option (List String)) (st : StorageState) :
    Option (List String) × StorageState :=
  let current := councilModels.getD []
  let next := current.filter (fun id => id ≠ modelId)
  if next.length < 2 then (councilModels, st)
  else (some next, setCouncilModels stringify next (setModelsCustomized true st))

/-! ### Stream reading (api.js sendMessageStream, lines 355-377) -/

/-- Split a character list at every occurrence of `c`, JavaScript
`String.prototype.split` style (empty fragments are kept). -/
def jsSplitAux (c : Char) : List Char → List Char → List String
  | [], acc => [String.mk acc.reverse]
  | x :: xs, acc =>
    if x = c then String.mk acc.reverse :: jsSplitAux c xs []
    else jsSplitAux c xs (x :: acc)

/-- JavaScript `s.split(c)` for a single-character separator, as used by
`chunk.split('\n')`. -/
def jsSplit (s : String) (c : Char) : List String := jsSplitAux c s.toList []

/-- The `line.startsWith('data: ')` test. -/
def isDataLine (line : String) : Bool :=
  List.isPrefixOf "data: ".toList line.toList

/-- The `line.slice(6)` payload extraction. -/
def dataPayload (line : String) : String := String.mk (line.toList.drop 6)

/-- Events delivered for one stream line: parse the payload of a
`data: `-prefixed line, swallowing a parse failure (the try/catch around
`JSON.parse`); ignore any other line. `parse` models `JSON.parse` plus the
`event.type` dispatch, producing an event of opaque type `ε` or failing. -/
def lineEvents {ε : Type} (parse : String → Option ε) (line : String) : List ε :=
  if isDataLine line then
    match parse (dataPayload line) with
    | some e => [e]
    | none => []
  else []

/-- Events delivered, in order, for a list of lines. -/
def processLines {ε : Type} (parse : String → Option ε) : List String → List ε
  | [] => []
  | l :: ls => lineEvents parse l ++ processLines parse ls

/-- Events delivered for one decoded read chunk: the chunk is split on
newlines and each line processed independently. -/
def chunkEvents {ε : Type} (parse : String → Option ε) (chunk : String) : List ε :=
  processLines parse (jsSplit chunk '\n')

/-- Events delivered over the whole read loop: each chunk is processed
independently, with no partial-line carry-over between chunks. -/
def streamEvents {ε : Type} (parse : String → Option ε) : List String → List ε
  | [] => []
  | c :: cs => chunkEvents parse c ++ streamEvents parse cs

/-- Sample event decoder used to witness the stream fault-isolation claim:
succeeds exactly on the payload "ok". -/
def decodeA : String → Option Nat :=
  fun s => if s = "ok" then some 0 else none

/-- Sample event decoder used to witness the chunk-splitting claim:
succeeds exactly on the payload "stage3". -/
def decodeB : String → Option Nat :=
  fun s => if s = "stage3" then some 0 else none

/-- Sample JSON-list decoder used to witness the getCouncilModels claim:
succeeds exactly on the stored string "x". -/
def decodeC : String → Option (List String) :=
  fun s => if s = "x" then some ["m1", "m2"] else none

/-! ### Helper lemmas -/

theorem updateLast_concat {α : Type} (f : α → α) (l : List α) (x : α) :
    updateLast f (l ++ [x]) = l ++ [f x] := by
  induction l with
  | nil => rfl
  | cons a l ih =>
    cases l with
    | nil => rfl
    | cons b l' =>
      have h : updateLast f ((a :: b :: l') ++ [x])
          = a :: updateLast f ((b :: l') ++ [x]) := rfl
      rw [h, ih]
      rfl

theorem getItem_setItem (s : Store) (k v q : String) :
    (s.setItem k v).getItem q = if q = k then some v else s.getItem q := rfl

theorem getItem_removeItem (s : Store) (k q : String) :
    (s.removeItem k).getItem q = if q = k then none else s.getItem q := rfl

theorem apiKey_ne_council : apiKeyKey ≠ councilModelsKey := by decide

theorem apiKey_ne_chairman : apiKeyKey ≠ chairmanModelKey := by decide

theorem apiKey_ne_sessionOnly : apiKeyKey ≠ sessionOnlyKey := by decide

theorem apiKey_ne_customized : apiKeyKey ≠ modelsCustomizedKey := by decide

theorem council_ne_chairman : councilModelsKey ≠ chairmanModelKey := by decide

theorem chairman_ne_council : chairmanModelKey ≠ councilModelsKey := by decide

theorem customized_ne_council : modelsCustomizedKey ≠ councilModelsKey := by decide

theorem customized_ne_chairman : modelsCustomizedKey ≠ chairmanModelKey := by decide

/-! ### Claim theorems -/

/-- C1: starting from any conversation state with a trailing empty-shell
assistant message, the event sequence stage1_start, stage1_complete(P1),
stage2_start, stage2_complete(P2, M), stage3_start, stage3_complete(P3),
complete run through the reducer yields a last message with stage1 = P1,
stage2 = P2, metadata = M, stage3 = P3, all three loading flags false, and
leaves the global busy flag false. -/
theorem c1_stage_pipeline {δ μ : Type} (ms : List (Message δ μ)) (P1 P2 P3 : δ) (M : μ)
    (b : Bool) (r : Nat) :
    (applyEvents ⟨ms ++ [assistantShell δ μ], b, r⟩
      [.stage1_start, .stage1_complete P1, .stage2_start, .stage2_complete P2 M,
       .stage3_start, .stage3_complete P3, .complete]).messages.getLast?
      = some ⟨.assistant, none, some P1, some P2, some P3, some M,
          ⟨false, false, false⟩⟩ ∧
    (applyEvents ⟨ms ++ [assistantShell δ μ], b, r⟩
      [.stage1_start, .stage1_complete P1, .stage2_start, .stage2_complete P2 M,
       .stage3_start, .stage3_complete P3, .complete]).isLoading = false := by
  simp only [applyEvents, List.foldl, applyEvent, updateLast_concat]
  constructor
  · have h : (ms ++ [onStage3Complete P3 (onStage3Start (onStage2Complete P2 M
        (onStage2Start (onStage1Complete P1 (onStage1Start (assistantShell δ μ))))))]).getLast?
        = some (onStage3Complete P3 (onStage3Start (onStage2Complete P2 M
        (onStage2Start (onStage1Complete P1 (onStage1Start (assistantShell δ μ))))))) :=
      List.getLast?_concat _
    rw [h]
    rfl
  · trivial

/-- C2: applying an `error` event after any prefix of events leaves the
message list (hence every previously-set stage field of the last message)
unchanged and sets the global busy flag to false; no rollback of
already-applied stages occurs. -/
theorem c2_error_frame {δ μ : Type} (s0 : AppState δ μ) (evs : List (CouncilEvent δ μ))
    (m : String) :
    (applyEvent (applyEvents s0 evs) (.error m)).messages = (applyEvents s0 evs).messages ∧
    (applyEvent (applyEvents s0 evs) (.error m)).isLoading = false := by
  exact ⟨rfl, rfl⟩

/-- C3: when `sendMessageStream` itself throws, the catch block of
`handleSendMessage` removes exactly the two optimistically appended
messages, restoring the message list to its pre-send state, and clears the
busy flag. -/
theorem c3_transport_failure_rollback {δ μ : Type} (s : AppState δ μ) (content : String) :
    handleSendMessageFailure s content = { s with isLoading := false } := by
  cases s with
  | mk msgs il rc =>
    have harr : (msgs ++ [userMessage δ μ content]) ++ [assistantShell δ μ]
        = msgs ++ [userMessage δ μ content, assistantShell δ μ] := by
      simp
    have hlen : (msgs ++ [userMessage δ μ content, assistantShell δ μ]).length - 2
        = msgs.length := by
      simp
    have htake : sliceDropLastTwo (msgs ++ [userMessage δ μ content, assistantShell δ μ])
        = msgs := by
      unfold sliceDropLastTwo
      rw [hlen]
      exact List.take_left msgs _
    simp only [handleSendMessageFailure, harr, htake]

/-- C4 counterexample: the claim quantifies over every secret value present
in the durable tier, but `setSessionOnly` skips migration for falsy values
(`if (key)`), so the empty-string secret written by `setApiKey ""` stays in
localStorage after `setSessionOnly true`; and with the session-only flag
already active, a truthy secret sitting in the durable tier is still moved,
so toggling with the already-active value is not always a no-op on the
secret's location. -/
theorem c4_counterexample :
    ((setApiKey "" emptyStorage).localStore.getItem apiKeyKey = some "" ∧
     (setApiKey "" emptyStorage).sessionStore.getItem apiKeyKey = none ∧
     (setSessionOnly true (setApiKey "" emptyStorage)).localStore.getItem apiKeyKey
       = some "") ∧
    (isSessionOnly { emptyStorage with
        localStore := (emptyStorage.localStore.setItem sessionOnlyKey "true").setItem
          apiKeyKey "k" } ∧
     (setSessionOnly true { emptyStorage with
        localStore := (emptyStorage.localStore.setItem sessionOnlyKey "true").setItem
          apiKeyKey "k" }).localStore.getItem apiKeyKey = none ∧
     (setSessionOnly true { emptyStorage with
        localStore := (emptyStorage.localStore.setItem sessionOnlyKey "true").setItem
          apiKeyKey "k" }).sessionStore.getItem apiKeyKey = some "k") := by
  exact ⟨⟨rfl, rfl, rfl⟩, ⟨rfl, rfl, rfl⟩⟩

/-- C4 (amended): for every non-empty secret value in the durable tier and
absent from the session tier, `setSessionOnly true` migrates it (afterwards
`getApiKey` still returns it and the durable tier no longer holds it);
symmetrically `setSessionOnly false` migrates a non-empty session-tier
value to the durable tier; and calling `setSessionOnly` with the
already-active value leaves the secret's location and value unchanged
provided the inactive tier holds no truthy secret. -/
theorem c4_migration_amended (st : StorageState) (v : String) :
    (v ≠ "" → st.localStore.getItem apiKeyKey = some v →
      st.sessionStore.getItem apiKeyKey = none →
      getApiKey (setSessionOnly true st) = v ∧
      (setSessionOnly true st).localStore.getItem apiKeyKey = none ∧
      (setSessionOnly true st).sessionStore.getItem apiKeyKey = some v) ∧
    (v ≠ "" → st.sessionStore.getItem apiKeyKey = some v →
      st.localStore.getItem apiKeyKey = none →
      getApiKey (setSessionOnly false st) = v ∧
      (setSessionOnly false st).sessionStore.getItem apiKeyKey = none ∧
      (setSessionOnly false st).localStore.getItem apiKeyKey = some v) ∧
    (∀ val : Bool, (val = true ↔ isSessionOnly st) →
      jsTruthy ((if val then st.localStore else st.sessionStore).getItem apiKeyKey) = false →
      (setSessionOnly val st).localStore.getItem apiKeyKey
        = st.localStore.getItem apiKeyKey ∧
      (setSessionOnly val st).sessionStore.getItem apiKeyKey
        = st.sessionStore.getItem apiKeyKey) := by
  refine ⟨?_, ?_, ?_⟩
  · intro hv hl hs
    simp [setSessionOnly, getItem_setItem, getItem_removeItem, apiKey_ne_sessionOnly,
      hl, hs, hv, getApiKey, jsStringOr]
  · intro hv hs hl
    simp [setSessionOnly, getItem_setItem, getItem_removeItem, apiKey_ne_sessionOnly,
      hl, hs, hv, getApiKey, jsStringOr]
  · intro val _hactive htr
    cases val with
    | true =>
      simp at htr
      cases hl : st.localStore.getItem apiKeyKey with
      | none =>
        simp [setSessionOnly, getItem_setItem, getItem_removeItem,
          apiKey_ne_sessionOnly, hl]
      | some key =>
        rw [hl] at htr
        by_cases hk : key = ""
        · subst hk
          simp [setSessionOnly, getItem_setItem, getItem_removeItem,
            apiKey_ne_sessionOnly, hl]
        · simp [jsTruthy, hk] at htr
    | false =>
      simp at htr
      cases hs : st.sessionStore.getItem apiKeyKey with
      | none =>
        simp [setSessionOnly, getItem_setItem, getItem_removeItem,
          apiKey_ne_sessionOnly, hs]
      | some key =>
        rw [hs] at htr
        by_cases hk : key = ""
        · subst hk
          simp [setSessionOnly, getItem_setItem, getItem_removeItem,
            apiKey_ne_sessionOnly, hs]
        · simp [jsTruthy, hk] at htr

/-- C4 witness: the amended theorem applied at concrete storage states. -/
theorem c4_migration_amended_witness :
    (getApiKey (setSessionOnly true
        { emptyStorage with localStore := emptyStorage.localStore.setItem apiKeyKey "sk" })
      = "sk" ∧
     (setSessionOnly true
        { emptyStorage with localStore := emptyStorage.localStore.setItem apiKeyKey "sk" }
       ).localStore.getItem apiKeyKey = none ∧
     (setSessionOnly true
        { emptyStorage with localStore := emptyStorage.localStore.setItem apiKeyKey "sk" }
       ).sessionStore.getItem apiKeyKey = some "sk") ∧
    ((setSessionOnly false
        { emptyStorage with sessionStore := emptyStorage.sessionStore.setItem apiKeyKey "sk" }
       ).sessionStore.getItem apiKeyKey = none ∧
     (setSessionOnly false
        { emptyStorage with sessionStore := emptyStorage.sessionStore.setItem apiKeyKey "sk" }
       ).localStore.getItem apiKeyKey = some "sk") ∧
    ((setSessionOnly false emptyStorage).localStore.getItem apiKeyKey
       = emptyStorage.localStore.getItem apiKeyKey ∧
     (setSessionOnly false emptyStorage).sessionStore.getItem apiKeyKey
       = emptyStorage.sessionStore.getItem apiKeyKey) := by
  refine ⟨?_, ?_, ?_⟩
  · exact (c4_migration_amended
      { emptyStorage with localStore := emptyStorage.localStore.setItem apiKeyKey "sk" }
      "sk").1 (by decide) rfl rfl
  · have h := (c4_migration_amended
      { emptyStorage with sessionStore := emptyStorage.sessionStore.setItem apiKeyKey "sk" }
      "sk").2.1 (by decide) rfl rfl
    exact ⟨h.2.1, h.2.2⟩
  · exact (c4_migration_amended emptyStorage "").2.2 false (by decide) rfl

/-- C5: after `setApiKey k` the secret exists in exactly the tier selected
by the session-only flag, with value `k`, and the other tier does not
contain it; and the invariant "the secret exists in at most one tier" is
preserved by `setApiKey`, `setSessionOnly`, and `clearAll` (for the first
and last even established unconditionally). -/
theorem c5_single_tier_invariant (st : StorageState) (k : String) (val : Bool) :
    (isSessionOnly st →
      (setApiKey k st).sessionStore.getItem apiKeyKey = some k ∧
      (setApiKey k st).localStore.getItem apiKeyKey = none) ∧
    (¬ isSessionOnly st →
      (setApiKey k st).localStore.getItem apiKeyKey = some k ∧
      (setApiKey k st).sessionStore.getItem apiKeyKey = none) ∧
    atMostOneTier (setApiKey k st) ∧
    (atMostOneTier st → atMostOneTier (setSessionOnly val st)) ∧
    atMostOneTier (clearAll st) := by
  refine ⟨?_, ?_, ?_, ?_, ?_⟩
  · intro h
    simp [setApiKey, h, Store.getItem, Store.setItem, Store.removeItem]
  · intro h
    simp [setApiKey, h, Store.getItem, Store.setItem, Store.removeItem]
  · by_cases h : isSessionOnly st
    · left
      simp [setApiKey, h, Store.getItem, Store.removeItem]
    · right
      simp [setApiKey, h, Store.getItem, Store.removeItem]
  · intro hinv
    cases val with
    | true =>
      cases hl : st.localStore.getItem apiKeyKey with
      | none =>
        left
        simp [setSessionOnly, getItem_setItem, apiKey_ne_sessionOnly, hl]
      | some key =>
        by_cases hk : key = ""
        · subst hk
          right
          rcases hinv with h1 | h2
          · rw [hl] at h1
            exact absurd h1 (by simp)
          · simpa [setSessionOnly, getItem_setItem, apiKey_ne_sessionOnly, hl] using h2
        · left
          simp [setSessionOnly, getItem_setItem, getItem_removeItem,
            apiKey_ne_sessionOnly, hl, hk]
    | false =>
      cases hs : st.sessionStore.getItem apiKeyKey with
      | none =>
        right
        simp [setSessionOnly, getItem_setItem, apiKey_ne_sessionOnly, hs]
      | some key =>
        by_cases hk : key = ""
        · subst hk
          left
          rcases hinv with h1 | h2
          · simpa [setSessionOnly, getItem_setItem, apiKey_ne_sessionOnly, hs] using h1
          · rw [hs] at h2
            exact absurd h2 (by simp)
        · right
          simp [setSessionOnly, getItem_setItem, getItem_removeItem,
            apiKey_ne_sessionOnly, hs, hk]
  · left
    simp [clearAll, getItem_removeItem, apiKey_ne_council, apiKey_ne_chairman,
      apiKey_ne_sessionOnly, apiKey_ne_customized]

/-- C5 witness: the invariant statement applied at a concrete storage
state. -/
theorem c5_single_tier_invariant_witness :
    ((setApiKey "sk" emptyStorage).localStore.getItem apiKeyKey = some "sk" ∧
     (setApiKey "sk" emptyStorage).sessionStore.getItem apiKeyKey = none) ∧
    atMostOneTier (setSessionOnly true emptyStorage) := by
  constructor
  · exact (c5_single_tier_invariant emptyStorage "sk" true).2.1 (by decide)
  · exact (c5_single_tier_invariant emptyStorage "sk" true).2.2.2.1 (Or.inl rfl)

/-- C6: `syncDefaults` is a no-op on storage when the models-customized
flag is `'true'`; when the flag is not set it overwrites the stored council
list with the stringified default (and removes the key when the default is
absent) and overwrites the stored chairman id with a non-empty default (and
removes the key when the default is absent). -/
theorem c6_syncDefaults_branches (stringify : List String → String) (d : Defaults)
    (st : StorageState) :
    (isModelsCustomized st → syncDefaults stringify d st = st) ∧
    (¬ isModelsCustomized st →
      (∀ l, d.council = some l →
        (syncDefaults stringify d st).localStore.getItem councilModelsKey
          = some (stringify l)) ∧
      (d.council = none →
        (syncDefaults stringify d st).localStore.getItem councilModelsKey = none) ∧
      (∀ c, d.chairman = some c → c ≠ "" →
        (syncDefaults stringify d st).localStore.getItem chairmanModelKey = some c ∧
        getChairmanModel (syncDefaults stringify d st) = some c) ∧
      (d.chairman = none →
        (syncDefaults stringify d st).localStore.getItem chairmanModelKey = none)) := by
  constructor
  · intro h
    have h' : st.localStore.getItem modelsCustomizedKey = some "true" := h
    simp [syncDefaults, h']
  · intro h
    have h' : ¬ st.localStore.getItem modelsCustomizedKey = some "true" := h
    refine ⟨?_, ?_, ?_, ?_⟩
    · intro l hl
      cases hc : d.chairman with
      | none =>
        simp [syncDefaults, h', hl, hc, getItem_setItem, getItem_removeItem,
          council_ne_chairman]
      | some c =>
        by_cases hce : c = "" <;>
          simp [syncDefaults, h', hl, hc, hce, getItem_setItem, getItem_removeItem,
            council_ne_chairman]
    · intro hl
      cases hc : d.chairman with
      | none =>
        simp [syncDefaults, h', hl, hc, getItem_setItem, getItem_removeItem,
          council_ne_chairman]
      | some c =>
        by_cases hce : c = "" <;>
          simp [syncDefaults, h', hl, hc, hce, getItem_setItem, getItem_removeItem,
            council_ne_chairman]
    · intro c hc hce
      cases hco : d.council with
      | none =>
        simp [syncDefaults, getChairmanModel, h', hc, hco, hce, getItem_setItem,
          getItem_removeItem]
      | some l =>
        simp [syncDefaults, getChairmanModel, h', hc, hco, hce, getItem_setItem,
          getItem_removeItem]
    · intro hc
      cases hco : d.council with
      | none =>
        simp [syncDefaults, h', hc, hco, getItem_setItem, getItem_removeItem]
      | some l =>
        simp [syncDefaults, h', hc, hco, getItem_setItem, getItem_removeItem]

/-- C6 witness: the defaults council `["a", "b"]` with chairman `"a"`
applied over an uncustomized empty selection yield exactly that stored
pair, and `syncDefaults` is the identity once the customized flag is set. -/
theorem c6_syncDefaults_branches_witness :
    (syncDefaults (fun l => String.intercalate "," l) ⟨some ["a", "b"], some "a"⟩
        emptyStorage).localStore.getItem councilModelsKey
      = some (String.intercalate "," ["a", "b"]) ∧
    (syncDefaults (fun l => String.intercalate "," l) ⟨some ["a", "b"], some "a"⟩
        emptyStorage).localStore.getItem chairmanModelKey = some "a" ∧
    getChairmanModel (syncDefaults (fun l => String.intercalate "," l)
        ⟨some ["a", "b"], some "a"⟩ emptyStorage) = some "a" ∧
    syncDefaults (fun l => String.intercalate "," l) ⟨some ["a", "b"], some "a"⟩
        (setModelsCustomized true emptyStorage)
      = setModelsCustomized true emptyStorage := by
  have hn := (c6_syncDefaults_branches (fun l => String.intercalate "," l)
    ⟨some ["a", "b"], some "a"⟩ emptyStorage).2 (by decide)
  have hy := (c6_syncDefaults_branches (fun l => String.intercalate "," l)
    ⟨some ["a", "b"], some "a"⟩ (setModelsCustomized true emptyStorage)).1 (by decide)
  have hch := hn.2.2.1 "a" rfl (by decide)
  exact ⟨hn.1 ["a", "b"] rfl, hch.1, hch.2, hy⟩

/-- C7: `handleRemoveCouncilModel` is a no-op (config, storage, and
customized flag all unchanged) whenever fewer than 2 models would remain;
on a 3-element duplicate-free council containing the removed id it yields
the 2-element remainder, written through to storage with the customized
flag set to `'true'`. -/
theorem c7_removeCouncilModel (stringify : List String → String) (modelId : String)
    (councilModels : Option (List String)) (st : StorageState) (cur : List String) :
    (((councilModels.getD []).filter (fun id => id ≠ modelId)).length < 2 →
      handleRemoveCouncilModel stringify modelId councilModels st = (councilModels, st)) ∧
    (cur.Nodup → cur.length = 3 → modelId ∈ cur →
      (cur.filter (fun id => id ≠ modelId)).length = 2 ∧
      handleRemoveCouncilModel stringify modelId (some cur) st
        = (some (cur.filter (fun id => id ≠ modelId)),
           setCouncilModels stringify (cur.filter (fun id => id ≠ modelId))
             (setModelsCustomized true st)) ∧
      ((handleRemoveCouncilModel stringify modelId (some cur) st).2.localStore.getItem
          councilModelsKey = some (stringify (cur.filter (fun id => id ≠ modelId)))) ∧
      ((handleRemoveCouncilModel stringify modelId (some cur) st).2.localStore.getItem
          modelsCustomizedKey = some "true")) := by
  constructor
  · intro hlt
    simp only [ne_eq, decide_not] at hlt
    simp [handleRemoveCouncilModel, hlt]
  · intro hnd hlen hmem
    have hfe : cur.filter (fun id => id ≠ modelId) = cur.erase modelId := by
      rw [hnd.erase_eq_filter]
      apply List.filter_congr
      intro x _
      by_cases hx : x = modelId <;> simp [hx]
    have hl2 : (cur.filter (fun id => id ≠ modelId)).length = 2 := by
      rw [hfe, List.length_erase_of_mem hmem, hlen]
    refine ⟨hl2, ?_, ?_, ?_⟩
    · simp only [ne_eq, decide_not] at hl2
      simp [handleRemoveCouncilModel, hl2]
    · simp only [ne_eq, decide_not] at hl2
      simp [handleRemoveCouncilModel, hl2, setCouncilModels, setModelsCustomized,
        getItem_setItem]
    · simp only [ne_eq, decide_not] at hl2
      simp [handleRemoveCouncilModel, hl2, setCouncilModels, setModelsCustomized,
        getItem_setItem, customized_ne_council]

/-- C7 witness: removing a member of the 2-element council is a refused
no-op, and removing a member of a 3-element council writes the 2-element
remainder with the customized flag. -/
theorem c7_removeCouncilModel_witness :
    handleRemoveCouncilModel (fun l => String.intercalate "," l) "a" (some ["a", "b"])
      emptyStorage = (some ["a", "b"], emptyStorage) ∧
    ((["a", "b", "c"] : List String).filter (fun id => id ≠ "a")).length = 2 ∧
    ((handleRemoveCouncilModel (fun l => String.intercalate "," l) "a"
        (some ["a", "b", "c"]) emptyStorage).2.localStore.getItem councilModelsKey
      = some (String.intercalate ","
          ((["a", "b", "c"] : List String).filter (fun id => id ≠ "a")))) ∧
    ((handleRemoveCouncilModel (fun l => String.intercalate "," l) "a"
        (some ["a", "b", "c"]) emptyStorage).2.localStore.getItem modelsCustomizedKey
      = some "true") := by
  have h1 := (c7_removeCouncilModel (fun l => String.intercalate "," l) "a"
    (some ["a", "b"]) emptyStorage ["a", "b", "c"]).1 (by decide)
  have h2 := (c7_removeCouncilModel (fun l => String.intercalate "," l) "a"
    (some ["a", "b", "c"]) emptyStorage ["a", "b", "c"]).2 (by decide) (by decide)
    (by decide)
  exact ⟨h1, h2.1, h2.2.2.1, h2.2.2.2⟩

theorem processLines_append {ε : Type} (parse : String → Option ε) (a b : List String) :
    processLines parse (a ++ b) = processLines parse a ++ processLines parse b := by
  induction a with
  | nil => rfl
  | cons x xs ih => simp [processLines, ih]

/-- C8: a `data: ` line whose payload fails to parse contributes no event
and does not abort processing — the events delivered for any line sequence
around it are exactly those of the surrounding lines, in arrival order;
lines without the `data: ` tag are ignored, and a well-formed `data: ` line
delivers exactly its decoded event. -/
theorem c8_frame_fault_isolation {ε : Type} (parse : String → Option ε)
    (pre post : List String) (bad : String)
    (h1 : isDataLine bad = true) (h2 : parse (dataPayload bad) = none) :
    processLines parse (pre ++ bad :: post)
      = processLines parse pre ++ processLines parse post ∧
    (∀ l, isDataLine l = false → lineEvents parse l = []) ∧
    (∀ l e, isDataLine l = true → parse (dataPayload l) = some e →
      lineEvents parse l = [e]) := by
  refine ⟨?_, ?_, ?_⟩
  · have hsplit : pre ++ bad :: post = pre ++ ([bad] ++ post) := rfl
    rw [hsplit, processLines_append, processLines_append]
    simp [processLines, lineEvents, h1, h2]
  · intro l hl
    simp [lineEvents, hl]
  · intro l e hl he
    simp [lineEvents, hl, he]

/-- C8 witness: the fault-isolation theorem at a concrete stream in which a
malformed frame sits between two well-formed frames. -/
theorem c8_frame_fault_isolation_witness :
    isDataLine "data: bad" = true ∧
    decodeA (dataPayload "data: bad") = none ∧
    processLines decodeA ["data: ok", "data: bad", "keepalive", "data: ok"]
      = processLines decodeA ["data: ok"]
        ++ processLines decodeA ["keepalive", "data: ok"] := by
  refine ⟨by decide, by decide, ?_⟩
  exact (c8_frame_fault_isolation decodeA ["data: ok"] ["keepalive", "data: ok"]
    "data: bad" (by decide) (by decide)).1

/-- C9: the read loop decodes and splits each chunk independently, with no
carry-over of a partial trailing line: a frame whose bytes arrive split
across two chunks is dropped (no event is delivered), although the same
bytes in a single chunk deliver the event. -/
theorem c9_no_chunk_buffering {ε : Type} (parse : String → Option ε) (e : ε)
    (h1 : parse "stage3" = some e) (h2 : parse "sta" = none) :
    streamEvents parse ["data: sta", "ge3\n"] = [] ∧
    streamEvents parse ["data: sta" ++ "ge3\n"] = [e] := by
  have ha : ("data: sta" ++ "ge3\n") = "data: stage3\n" := rfl
  have hs1 : jsSplit "data: sta" '\n' = ["data: sta"] := by decide
  have hs2 : jsSplit "ge3\n" '\n' = ["ge3", ""] := by decide
  have hs3 : jsSplit "data: stage3\n" '\n' = ["data: stage3", ""] := by decide
  have hd1 : isDataLine "data: sta" = true := by decide
  have hd2 : isDataLine "ge3" = false := by decide
  have hd3 : isDataLine "" = false := by decide
  have hd4 : isDataLine "data: stage3" = true := by decide
  have hp1 : dataPayload "data: sta" = "sta" := by decide
  have hp2 : dataPayload "data: stage3" = "stage3" := by decide
  constructor
  · simp [streamEvents, chunkEvents, processLines, lineEvents, hs1, hs2, hd1, hd2,
      hd3, hp1, h2]
  · simp [streamEvents, chunkEvents, processLines, lineEvents, ha, hs3, hd4, hd3,
      hp2, h1]

/-- C9 witness: the chunk-splitting theorem at a concrete decoder. -/
theorem c9_no_chunk_buffering_witness :
    streamEvents decodeB ["data: sta", "ge3\n"] = [] ∧
    streamEvents decodeB ["data: sta" ++ "ge3\n"] = [(0 : Nat)] := by
  exact c9_no_chunk_buffering decodeB 0 (by decide) (by decide)

/-- C10: `getCouncilModels` is total over arbitrary storage contents: it
agrees with binding the stored value through the parse function, returning
`none` both when no value is stored and when parsing fails, and the parsed
list otherwise (assuming the parse function rejects the empty string, as
`JSON.parse` does). -/
theorem c10_getCouncilModels_total (parse : String → Option (List String))
    (st : StorageState) (hempty : parse "" = none) :
    getCouncilModels parse st = (st.localStore.getItem councilModelsKey).bind parse ∧
    (st.localStore.getItem councilModelsKey = none → getCouncilModels parse st = none) ∧
    (∀ s, st.localStore.getItem councilModelsKey = some s → parse s = none →
      getCouncilModels parse st = none) ∧
    (∀ s l, st.localStore.getItem councilModelsKey = some s → parse s = some l →
      getCouncilModels parse st = some l) := by
  cases hst : st.localStore.getItem councilModelsKey with
  | none => simp [getCouncilModels, hst]
  | some s =>
    refine ⟨?_, by simp [hst], ?_, ?_⟩
    · by_cases hs : s = ""
      · subst hs
        simp [getCouncilModels, hst, hempty]
      · simp [getCouncilModels, hst, hs]
    · intro s' hs' hpn
      cases hs'
      by_cases hs : s = ""
      · subst hs
        simp [getCouncilModels, hst]
      · simp [getCouncilModels, hst, hs, hpn]
    · intro s' l hs' hpl
      cases hs'
      by_cases hs : s = ""
      · subst hs
        rw [hempty] at hpl
        exact absurd hpl (by simp)
      · simp [getCouncilModels, hst, hs, hpl]

/-- C10 witness: the totality theorem at a concrete decoder over the empty
store, a store holding a parsable value, and a store holding junk. -/
theorem c10_getCouncilModels_total_witness :
    getCouncilModels decodeC emptyStorage = none ∧
    getCouncilModels decodeC { emptyStorage with
      localStore := emptyStorage.localStore.setItem councilModelsKey "x" }
      = some ["m1", "m2"] ∧
    getCouncilModels decodeC { emptyStorage with
      localStore := emptyStorage.localStore.setItem councilModelsKey "junk" }
      = none := by
  refine ⟨?_, ?_, ?_⟩
  · exact (c10_getCouncilModels_total decodeC emptyStorage (by decide)).2.1 rfl
  · exact (c10_getCouncilModels_total decodeC { emptyStorage with
      localStore := emptyStorage.localStore.setItem councilModelsKey "x" }
      (by decide)).2.2.2 "x" ["m1", "m2"] rfl (by decide)
  · exact (c10_getCouncilModels_total decodeC { emptyStorage with
      localStore := emptyStorage.localStore.setItem councilModelsKey "junk" }
      (by decide)).2.2.1 "junk" rfl (by decide)

end LLMCouncil
